import Mathlib

/-!
Shallow embedding of `custom_components/emby_upcoming_media/client.py`
(class `EmbyClient`) and proofs about its specified behaviour.

Pure computations (URL formatting, cache filename derivation, MD5) are
embedded as Lean functions; the stateful operations are embedded as
explicit state-passing functions over a client state and a filesystem
modelled as an association list from filename to byte content.  HTTP
calls are modelled by passing the outcome of the single `requests.get`
call as an `Except` value: `Except.error` is a raised `OSError`
(network-level failure), `Except.ok` carries the status code and the
parsed body.
-/

namespace EmbyUpcomingMedia

/-! ### 32-bit word arithmetic on `Nat`, reduced mod 2^32 -/

def w32 (n : Nat) : Nat := n % 4294967296

def wadd (a b : Nat) : Nat := (a + b) % 4294967296

def wnot (a : Nat) : Nat := Nat.xor a 4294967295

def rotl (x s : Nat) : Nat :=
  Nat.lor (Nat.shiftLeft x s % 4294967296) (Nat.shiftRight x (32 - s))

/-! ### UTF-8 encoding, as Python `str.encode()` produces it -/

def utf8Char (c : Char) : List Nat :=
  let n := c.toNat
  if n < 128 then [n]
  else if n < 2048 then [192 + n / 64, 128 + n % 64]
  else if n < 65536 then [224 + n / 4096, 128 + n / 64 % 64, 128 + n % 64]
  else [240 + n / 262144, 128 + n / 4096 % 64, 128 + n / 64 % 64, 128 + n % 64]

def utf8Bytes (s : String) : List Nat := s.data.flatMap utf8Char

/-! ### MD5 (`hashlib.md5`), RFC 1321, over byte lists -/

def md5S : List Nat :=
  [7, 12, 17, 22, 7, 12, 17, 22, 7, 12, 17, 22, 7, 12, 17, 22,
   5, 9, 14, 20, 5, 9, 14, 20, 5, 9, 14, 20, 5, 9, 14, 20,
   4, 11, 16, 23, 4, 11, 16, 23, 4, 11, 16, 23, 4, 11, 16, 23,
   6, 10, 15, 21, 6, 10, 15, 21, 6, 10, 15, 21, 6, 10, 15, 21]

def md5K : List Nat :=
  [0xd76aa478, 0xe8c7b756, 0x242070db, 0xc1bdceee,
   0xf57c0faf, 0x4787c62a, 0xa8304613, 0xfd469501,
   0x698098d8, 0x8b44f7af, 0xffff5bb1, 0x895cd7be,
   0x6b901122, 0xfd987193, 0xa679438e, 0x49b40821,
   0xf61e2562, 0xc040b340, 0x265e5a51, 0xe9b6c7aa,
   0xd62f105d, 0x02441453, 0xd8a1e681, 0xe7d3fbc8,
   0x21e1cde6, 0xc33707d6, 0xf4d50d87, 0x455a14ed,
   0xa9e3e905, 0xfcefa3f8, 0x676f02d9, 0x8d2a4c8a,
   0xfffa3942, 0x8771f681, 0x6d9d6122, 0xfde5380c,
   0xa4beea44, 0x4bdecfa9, 0xf6bb4b60, 0xbebfbc70,
   0x289b7ec6, 0xeaa127fa, 0xd4ef3085, 0x04881d05,
   0xd9d4d039, 0xe6db99e5, 0x1fa27cf8, 0xc4ac5665,
   0xf4292244, 0x432aff97, 0xab9423a7, 0xfc93a039,
   0x655b59c3, 0x8f0ccc92, 0xffeff47d, 0x85845dd1,
   0x6fa87e4f, 0xfe2ce6e0, 0xa3014314, 0x4e0811a1,
   0xf7537e82, 0xbd3af235, 0x2ad7d2bb, 0xeb86d391]

def md5Pad (msg : List Nat) : List Nat :=
  let len := msg.length
  let k := (119 - len % 64) % 64
  let lenBits := len * 8 % 18446744073709551616
  msg ++ [128] ++ List.replicate k 0 ++
    (List.range 8).map (fun i => Nat.shiftRight lenBits (8 * i) % 256)

def leWord (block : List Nat) (j : Nat) : Nat :=
  block.getD (4 * j) 0 + 256 * block.getD (4 * j + 1) 0 +
    65536 * block.getD (4 * j + 2) 0 + 16777216 * block.getD (4 * j + 3) 0

def md5F (i b c d : Nat) : Nat :=
  if i < 16 then Nat.lor (Nat.land b c) (Nat.land (wnot b) d)
  else if i < 32 then Nat.lor (Nat.land d b) (Nat.land (wnot d) c)
  else if i < 48 then Nat.xor (Nat.xor b c) d
  else Nat.xor c (Nat.lor b (wnot d))

def md5G (i : Nat) : Nat :=
  if i < 16 then i
  else if i < 32 then (5 * i + 1) % 16
  else if i < 48 then (3 * i + 5) % 16
  else 7 * i % 16

def md5Round (M : Nat → Nat) (st : Nat × Nat × Nat × Nat) (i : Nat) :
    Nat × Nat × Nat × Nat :=
  let f := wadd (wadd (wadd (md5F i st.2.1 st.2.2.1 st.2.2.2) st.1) (md5K.getD i 0))
    (M (md5G i))
  (st.2.2.2, wadd st.2.1 (rotl f (md5S.getD i 0)), st.2.1, st.2.2.1)

def md5Block (h : Nat × Nat × Nat × Nat) (block : List Nat) :
    Nat × Nat × Nat × Nat :=
  let r := (List.range 64).foldl (md5Round (leWord block)) h
  (wadd h.1 r.1, wadd h.2.1 r.2.1, wadd h.2.2.1 r.2.2.1, wadd h.2.2.2 r.2.2.2)

def md5Blocks : Nat → Nat × Nat × Nat × Nat → List Nat → Nat × Nat × Nat × Nat
  | 0, h, _ => h
  | _ + 1, h, [] => h
  | n + 1, h, a :: rest =>
    md5Blocks n (md5Block h ((a :: rest).take 64)) ((a :: rest).drop 64)

def toLE4 (x : Nat) : List Nat :=
  [x % 256, x / 256 % 256, x / 65536 % 256, x / 16777216 % 256]

def md5Digest (msg : List Nat) : List Nat :=
  let p := md5Pad msg
  let h := md5Blocks p.length (0x67452301, 0xefcdab89, 0x98badcfe, 0x10325476) p
  toLE4 h.1 ++ toLE4 h.2.1 ++ toLE4 h.2.2.1 ++ toLE4 h.2.2.2

def hexDigit (n : Nat) : Char :=
  if n < 10 then Char.ofNat (48 + n) else Char.ofNat (87 + n)

def byteHex (b : Nat) : List Char := [hexDigit (b / 16), hexDigit (b % 16)]

def hexdigest (bytes : List Nat) : String := String.mk (bytes.flatMap byteHex)

def md5hex (s : String) : String := hexdigest (md5Digest (utf8Bytes s))

/-! ### Client configuration: the constructor arguments of `EmbyClient`.
`img_dir = none` models a falsy `img_dir` (`None` or the empty string);
`ssl` is stored pre-rendered by `__init__` as `"s"`/`""` via `sslStr`. -/

structure Config where
  host : String
  api_key : String
  ssl : Bool
  port : String
  max_items : Nat
  user_id : String
  show_episodes : Bool
  img_dir : Option String
  img_cache_days : Nat := 30
deriving Repr, DecidableEq

def sslStr (cfg : Config) : String := if cfg.ssl then "s" else ""

def show_episodes_suffix (cfg : Config) : String :=
  if cfg.show_episodes then "&GroupItems=False" else ""

def view_categories_url (cfg : Config) : String :=
  "http" ++ sslStr cfg ++ "://" ++ cfg.host ++ ":" ++ cfg.port ++ "/Users/" ++
    cfg.user_id ++ "/Views?api_key=" ++ cfg.api_key

def latest_items_url (cfg : Config) (categoryId : String) : String :=
  "http" ++ sslStr cfg ++ "://" ++ cfg.host ++ ":" ++ cfg.port ++ "/Users/" ++
    cfg.user_id ++ "/Items/Latest?Limit=" ++ toString cfg.max_items ++
    "&Fields=CommunityRating,Studios,PremiereDate,Genres,ChildCount,ProductionYear,DateCreated&ParentId=" ++
    categoryId ++ "&api_key=" ++ cfg.api_key ++ show_episodes_suffix cfg

def image_remote_url (cfg : Config) (itemId imageType : String) : String :=
  "http" ++ sslStr cfg ++ "://" ++ cfg.host ++ ":" ++ cfg.port ++ "/Items/" ++
    itemId ++ "/Images/" ++ imageType ++
    "?maxHeight=360&maxWidth=640&quality=90&api_key=" ++ cfg.api_key

/-- `get_image_url` lines 162-164: `filename_base = f"{itemId}_{imageType}"`,
`filename_hash = hashlib.md5(filename_base.encode()).hexdigest()[:8]`,
`filename = f"{filename_base}_{filename_hash}.jpg"`. -/
def image_filename (itemId imageType : String) : String :=
  let base := itemId ++ "_" ++ imageType
  base ++ "_" ++ (md5hex base).take 8 ++ ".jpg"

/-! ### Python substring/split on the fixed separator `'/www/'`.
`hasMarker l` models `'/www/' in s` (substring occurrence test) and
`wwwSplit l` models `s.split('/www/')` (greedy left-to-right splitting on
non-overlapping occurrences), both over `s.data`. -/

def wwwMarker : List Char := ['/', 'w', 'w', 'w', '/']

def hasMarker : List Char → Bool
  | [] => false
  | c :: rest => wwwMarker.isPrefixOf (c :: rest) || hasMarker rest

def consHead (c : Char) : List (List Char) → List (List Char)
  | [] => [[c]]
  | s :: ss => (c :: s) :: ss

def wwwSplit : List Char → List (List Char)
  | '/' :: 'w' :: 'w' :: 'w' :: '/' :: rest => [] :: wwwSplit rest
  | c :: rest => consHead c (wwwSplit rest)
  | [] => [[]]

/-- `get_image_url` lines 179-180: `local_path = self.img_dir.split('/www/')[-1]`
then `f"/local/{local_path}/{filename}"`. -/
def toServablePath (dir filename : String) : String :=
  "/local/" ++ String.mk ((wwwSplit dir.data).getLastD []) ++ "/" ++ filename

/-! ### Filesystem model: the cache directory as an association list from
filename to byte content.  Writing a name replaces any previous file of
that name, as on a real filesystem. -/

abbrev FS := List (String × List Nat)

def fsExists (fs : FS) (n : String) : Bool := (fs.lookup n).isSome

def fsSet (fs : FS) (n : String) (v : List Nat) : FS :=
  (n, v) :: fs.filter (fun p => p.1 != n)

/-- Result of one `get_image_url` call: the returned URL, the argument pair
`(emby_url, filename)` handed to the spawned `download_image_sync` thread
(or `none` when no thread is started), and whether the missing-`/www/`
warning was logged. -/
structure ImageUrlResult where
  url : String
  download : Option (String × String)
  warned : Bool
deriving Repr, DecidableEq

def get_image_url (cfg : Config) (fs : FS) (itemId imageType : String) :
    ImageUrlResult :=
  let emby_url := image_remote_url cfg itemId imageType
  match cfg.img_dir with
  | none => ⟨emby_url, none, false⟩
  | some dir =>
    let filename := image_filename itemId imageType
    let download := if fsExists fs filename then none else some (emby_url, filename)
    if hasMarker dir.data then ⟨toServablePath dir filename, download, false⟩
    else ⟨emby_url, download, true⟩

/-- `cleanup_old_images`, lines 122-142, over the directory listing
(filename, mtime): keeps a file unless its name ends in `.jpg` and its
mtime is strictly below `now - img_cache_days * 86400`.  The per-file
`try/except` around `os.remove` is modelled with removals succeeding. -/
def cleanup_old_images (files : List (String × Int)) (now : Int)
    (img_cache_days : Nat) : List (String × Int) :=
  let cutoff_time : Int := now - img_cache_days * 86400
  files.filter (fun f => !(f.1.endsWith ".jpg" && decide (f.2 < cutoff_time)))

/-! ### `download_image_sync`: the `requests.get` outcome is passed in as
`Except.error ()` (exception raised by the request itself) or
`Except.ok (status, chunks)`; each chunk of `response.iter_content` is
`Except.ok bytes`, or `Except.error ()` for an exception raised while
streaming or writing (caught by the surrounding `except`, leaving the
partially written file in place).  `open(filepath, 'wb')` creates or
truncates the file; the trailing `os.path.exists` check is `fsExists`. -/

abbrev DownloadNet := Except Unit (Nat × List (Except Unit (List Nat)))

def writeChunks (filename : String) : FS → List (Except Unit (List Nat)) → FS × Bool
  | fs, [] => (fs, fsExists fs filename)
  | fs, Except.ok c :: rest =>
    writeChunks filename (fsSet fs filename (((fs.lookup filename).getD []) ++ c)) rest
  | fs, Except.error _ :: _ => (fs, false)

def download_image_sync (fs : FS) (filename : String) (net : DownloadNet) :
    FS × Bool :=
  match net with
  | Except.error _ => (fs, false)
  | Except.ok (status, chunks) =>
    if status == 200 then writeChunks filename (fsSet fs filename []) chunks
    else (fs, false)

/-! ### Media catalog client state: `self.data` (one dict holding the
`"ViewCategories"` snapshot and the per-category snapshots) and
`self._state` (unset until first assigned).  Item payloads are opaque. -/

abbrev MediaItem := String

structure ClientState where
  data : List (String × List MediaItem)
  last_state : Option String
deriving Repr, DecidableEq

def dataSet (st : ClientState) (k : String) (v : List MediaItem) : ClientState :=
  { st with data := (k, v) :: st.data.filter (fun p => p.1 != k) }

def unreachable_state (cfg : Config) : String := cfg.host ++ " cannot be reached"

abbrev CatalogNet := Except Unit (Nat × List MediaItem)

/-- `get_view_categories`, lines 41-57.  `Except.error "KeyError"` models the
uncaught `KeyError` raised by `self.data["ViewCategories"]` when the key was
never populated; note the final `return self.data["ViewCategories"]` is
reached on the non-200 path as well. -/
def get_view_categories (cfg : Config) (st : ClientState) (net : CatalogNet) :
    Except String (ClientState × Option (List MediaItem)) :=
  match net with
  | Except.error _ =>
    Except.ok ({ st with last_state := some (unreachable_state cfg) }, none)
  | Except.ok (status, items) =>
    let st2 :=
      if status == 200 then dataSet st "ViewCategories" items
      else { st with last_state := some (unreachable_state cfg) }
    match st2.data.lookup "ViewCategories" with
    | some v => Except.ok (st2, some v)
    | none => Except.error "KeyError"

/-- `get_data`, lines 59-87.  On 200 stores `api.json()[:max_items]` under
`categoryId` and returns it; otherwise records the unreachable status and
returns `None` without touching `self.data`. -/
def get_data (cfg : Config) (st : ClientState) (categoryId : String)
    (net : CatalogNet) : Except String (ClientState × Option (List MediaItem)) :=
  match net with
  | Except.error _ =>
    Except.ok ({ st with last_state := some (unreachable_state cfg) }, none)
  | Except.ok (status, body) =>
    if status == 200 then
      let st2 := dataSet { st with last_state := some "Online" } categoryId
        (body.take cfg.max_items)
      Except.ok (st2, st2.data.lookup categoryId)
    else
      Except.ok ({ st with last_state := some (unreachable_state cfg) }, none)

/-! ### Cache-directory histories: the only writers of the cache directory
are completed background downloads (and the sweep, which only deletes);
`resolve` is a `get_image_url` call, which reads but never writes. -/

inductive CacheEvent where
  | resolve (itemId imageType : String)
  | finish (filename : String) (net : DownloadNet)

def stepCache (fs : FS) : CacheEvent → FS
  | CacheEvent.resolve _ _ => fs
  | CacheEvent.finish filename net => (download_image_sync fs filename net).1

def runCache (fs : FS) (evs : List CacheEvent) : FS := evs.foldl stepCache fs

def fsNames (fs : FS) : List String := fs.map Prod.fst

/-- Modelled from the spec, §4.1 step 1: the canonical remote URL
`http(s)://host:port/Items/{itemId}/Images/{imageType}?maxHeight=360&maxWidth=640&quality=90&api_key={apiKey}`. -/
def canonical_remote_url (useTLS : Bool) (host port apiKey itemId imageType : String) :
    String :=
  "http" ++ (if useTLS then "s" else "") ++ "://" ++ host ++ ":" ++ port ++
    "/Items/" ++ itemId ++ "/Images/" ++ imageType ++
    "?maxHeight=360&maxWidth=640&quality=90&api_key=" ++ apiKey

def isHexChar (c : Char) : Bool := "0123456789abcdef".data.contains c

/-! ### Helper lemmas about the MD5 digest and its hex rendering -/

theorem flatMap_byteHex_length (bs : List Nat) :
    (bs.flatMap byteHex).length = 2 * bs.length := by
  induction bs with
  | nil => rfl
  | cons b rest ih => simp [List.flatMap_cons, byteHex, ih]; omega

theorem md5Digest_length (msg : List Nat) : (md5Digest msg).length = 16 := by
  simp [md5Digest, toLE4]

theorem md5Digest_lt (msg : List Nat) : ∀ x ∈ md5Digest msg, x < 256 := by
  intro x hx
  simp [md5Digest, toLE4] at hx
  omega

theorem hexDigit_isHex (n : Nat) (h : n < 16) : isHexChar (hexDigit n) = true := by
  interval_cases n <;> decide

theorem byteHex_isHex (b : Nat) (h : b < 256) :
    ∀ c ∈ byteHex b, isHexChar c = true := by
  intro c hc
  simp [byteHex] at hc
  rcases hc with h1 | h1 <;> subst h1
  · exact hexDigit_isHex _ (Nat.div_lt_of_lt_mul (by omega))
  · exact hexDigit_isHex _ (Nat.mod_lt _ (by omega))

theorem md5hex_length (s : String) : (md5hex s).length = 32 := by
  have h1 : (md5hex s).data = (md5Digest (utf8Bytes s)).flatMap byteHex := rfl
  have h2 : (md5hex s).length = (md5hex s).data.length := rfl
  rw [h2, h1, flatMap_byteHex_length, md5Digest_length]

theorem md5hex_isHex (s : String) : ∀ c ∈ (md5hex s).data, isHexChar c = true := by
  intro c hc
  have h1 : (md5hex s).data = (md5Digest (utf8Bytes s)).flatMap byteHex := rfl
  rw [h1, List.mem_flatMap] at hc
  obtain ⟨b, hb, hcb⟩ := hc
  exact byteHex_isHex b (md5Digest_lt _ b hb) c hcb

/-- C1: the cache filename computed by `get_image_url` for `(itemId, imageType)`
is `"{itemId}_{imageType}_{hash8}.jpg"`, where `hash8` is the first 8 hex
characters (length 8, all lowercase hex digits) of the MD5 hash of
`"{itemId}_{imageType}"`.  The computation is a pure function of the pair, so
repeated calls yield the same filename string. -/
theorem image_filename_spec (itemId imageType : String) :
    image_filename itemId imageType =
      (itemId ++ "_" ++ imageType) ++ "_" ++
        (md5hex (itemId ++ "_" ++ imageType)).take 8 ++ ".jpg" ∧
    ((md5hex (itemId ++ "_" ++ imageType)).take 8).length = 8 ∧
    ((md5hex (itemId ++ "_" ++ imageType)).take 8).data.all isHexChar = true := by
  refine ⟨rfl, ?_, ?_⟩
  · have h1 : ((md5hex (itemId ++ "_" ++ imageType)).take 8).length =
        ((md5hex (itemId ++ "_" ++ imageType)).data.take 8).length := by
      rw [String.take_eq]; rfl
    rw [h1, List.length_take]
    have h2 := md5hex_length (itemId ++ "_" ++ imageType)
    have h3 : (md5hex (itemId ++ "_" ++ imageType)).data.length = 32 := h2
    omega
  · rw [List.all_eq_true]
    intro c hc
    rw [String.take_eq] at hc
    exact md5hex_isHex _ c (List.take_subset 8 _ hc)

/-- C2: `cleanup_old_images` retains exactly the files that are not
(`.jpg`-named and strictly older than `now - img_cache_days * 86400`):
a file is deleted iff its name ends in `.jpg` and its mtime is below the
cutoff; newer `.jpg` files and all non-`.jpg` files survive. -/
theorem cleanup_old_images_spec (files : List (String × Int)) (now : Int)
    (days : Nat) (f : String × Int) :
    f ∈ cleanup_old_images files now days ↔
      f ∈ files ∧ ¬(f.1.endsWith ".jpg" = true ∧ f.2 < now - days * 86400) := by
  rw [cleanup_old_images, List.mem_filter]
  rw [Bool.not_eq_true', Bool.and_eq_false_iff]
  rw [decide_eq_false_iff_not]
  constructor
  · rintro ⟨h1, h2 | h2⟩
    · exact ⟨h1, fun hh => by rw [hh.1] at h2; cases h2⟩
    · exact ⟨h1, fun hh => h2 hh.2⟩
  · rintro ⟨h1, h2⟩
    refine ⟨h1, ?_⟩
    by_cases he : f.1.endsWith ".jpg" = true
    · exact Or.inr (fun hlt => h2 ⟨he, hlt⟩)
    · exact Or.inl (by simpa using he)

/-- C3: with no cache directory configured (`img_dir` falsy), `get_image_url`
returns exactly the canonical remote URL, starts no background download,
logs no warning, and its result does not depend on the cache-directory
contents (it never consults the filesystem). -/
theorem get_image_url_cache_disabled (cfg : Config) (fs fs2 : FS)
    (itemId imageType : String) (h : cfg.img_dir = none) :
    get_image_url cfg fs itemId imageType =
      ⟨canonical_remote_url cfg.ssl cfg.host cfg.port cfg.api_key itemId imageType,
        none, false⟩ ∧
    get_image_url cfg fs itemId imageType = get_image_url cfg fs2 itemId imageType := by
  constructor <;>
    simp [get_image_url, h, image_remote_url, canonical_remote_url, sslStr]

theorem get_image_url_cache_disabled_witness :
    get_image_url ⟨"emby.local", "key1", true, "8096", 5, "u1", false, none, 30⟩
        [("other.jpg", [1])] "42" "Primary" =
      ⟨canonical_remote_url true "emby.local" "8096" "key1" "42" "Primary",
        none, false⟩ ∧
    get_image_url ⟨"emby.local", "key1", true, "8096", 5, "u1", false, none, 30⟩
        [("other.jpg", [1])] "42" "Primary" =
      get_image_url ⟨"emby.local", "key1", true, "8096", 5, "u1", false, none, 30⟩
        [] "42" "Primary" :=
  get_image_url_cache_disabled
    ⟨"emby.local", "key1", true, "8096", 5, "u1", false, none, 30⟩
    [("other.jpg", [1])] [] "42" "Primary" rfl

/-- C8: on an HTTP 200 response, `get_data` stores and returns the server's
list truncated to its first `max_items` elements; the returned sequence has
length at most `max_items`. -/
theorem get_data_truncates (cfg : Config) (st : ClientState) (categoryId : String)
    (body : List MediaItem) :
    get_data cfg st categoryId (Except.ok (200, body)) =
      Except.ok (dataSet { st with last_state := some "Online" } categoryId
        (body.take cfg.max_items), some (body.take cfg.max_items)) ∧
    (body.take cfg.max_items).length ≤ cfg.max_items := by
  constructor
  · simp [get_data, dataSet, List.lookup]
  · exact List.length_take_le cfg.max_items body

/-- C10: on a non-200 response, `get_data` returns `None`, records the
host-unreachable status, and leaves `self.data` (hence any previously
fetched snapshot for the category) untouched. -/
theorem get_data_failure_preserves (cfg : Config) (st : ClientState)
    (categoryId : String) (status : Nat) (body : List MediaItem)
    (h : status ≠ 200) :
    get_data cfg st categoryId (Except.ok (status, body)) =
      Except.ok ({ st with last_state := some (unreachable_state cfg) }, none) ∧
    ({ st with last_state := some (unreachable_state cfg) } : ClientState).data =
      st.data := by
  refine ⟨?_, rfl⟩
  simp [get_data, h]

theorem get_data_failure_preserves_witness :
    get_data ⟨"emby.local", "key1", false, "8096", 5, "u1", false, none, 30⟩
        ⟨[("cat1", ["old"])], none⟩ "cat1" (Except.ok (500, ["fresh"])) =
      Except.ok (⟨[("cat1", ["old"])],
        some (unreachable_state
          ⟨"emby.local", "key1", false, "8096", 5, "u1", false, none, 30⟩)⟩,
        none) ∧
    (⟨[("cat1", ["old"])],
      some (unreachable_state
        ⟨"emby.local", "key1", false, "8096", 5, "u1", false, none, 30⟩)⟩ :
          ClientState).data =
      (⟨[("cat1", ["old"])], none⟩ : ClientState).data :=
  get_data_failure_preserves
    ⟨"emby.local", "key1", false, "8096", 5, "u1", false, none, 30⟩
    ⟨[("cat1", ["old"])], none⟩ "cat1" 500 ["fresh"] (by decide)

/-- C9: with caching enabled but a cache directory lacking the `/www/`
marker, `get_image_url` logs the warning and returns the canonical remote
URL rather than a local path. -/
theorem get_image_url_no_marker (cfg : Config) (dir : String) (fs : FS)
    (itemId imageType : String) (h : cfg.img_dir = some dir)
    (hm : hasMarker dir.data = false) :
    (get_image_url cfg fs itemId imageType).url =
      canonical_remote_url cfg.ssl cfg.host cfg.port cfg.api_key itemId imageType ∧
    (get_image_url cfg fs itemId imageType).warned = true := by
  constructor <;>
    simp [get_image_url, h, hm, image_remote_url, canonical_remote_url, sslStr]

theorem get_image_url_no_marker_witness :
    (get_image_url
        ⟨"emby.local", "key1", false, "8096", 5, "u1", false, some "/config/images", 30⟩
        [] "42" "Primary").url =
      canonical_remote_url false "emby.local" "8096" "key1" "42" "Primary" ∧
    (get_image_url
        ⟨"emby.local", "key1", false, "8096", 5, "u1", false, some "/config/images", 30⟩
        [] "42" "Primary").warned = true :=
  get_image_url_no_marker
    ⟨"emby.local", "key1", false, "8096", 5, "u1", false, some "/config/images", 30⟩
    "/config/images" [] "42" "Primary" rfl (by decide)

/-- C5, counterexample: on a write/stream error after the file has been
opened, `download_image_sync` fails (returns `False`) but leaves the
partially written file behind — the claim that any failure leaves no file
behind is false on the code. -/
theorem download_image_sync_partial_file :
    (download_image_sync [] "a.jpg"
        (Except.ok (200, [Except.ok [7], Except.error ()]))).2 = false ∧
    fsExists (download_image_sync [] "a.jpg"
        (Except.ok (200, [Except.ok [7], Except.error ()]))).1 "a.jpg" = true := by
  decide

/-- C5, amended: a failure of the request itself (network error) or a non-200
status makes `download_image_sync` log and return `False` with the
filesystem unchanged — no file is left behind and there is no retry (the
operation performs a single request).  A write/stream error after the file
is opened still fails without retrying, but may leave a partial file. -/
theorem download_image_sync_failure_no_file (fs : FS) (filename : String)
    (status : Nat) (chunks : List (Except Unit (List Nat))) (h : status ≠ 200) :
    download_image_sync fs filename (Except.error ()) = (fs, false) ∧
    download_image_sync fs filename (Except.ok (status, chunks)) = (fs, false) := by
  refine ⟨rfl, ?_⟩
  simp [download_image_sync, h]

theorem download_image_sync_failure_no_file_witness :
    download_image_sync [("old.jpg", [1])] "a.jpg" (Except.error ()) =
      ([("old.jpg", [1])], false) ∧
    download_image_sync [("old.jpg", [1])] "a.jpg"
        (Except.ok (404, [Except.ok [7]])) =
      ([("old.jpg", [1])], false) :=
  download_image_sync_failure_no_file [("old.jpg", [1])] "a.jpg" 404
    [Except.ok [7]] (by decide)

/-- C6: evaluating `get_view_categories` at the failing input — a non-200
response when no successful fetch has populated `self.data["ViewCategories"]`
— reaches the trailing `return self.data["ViewCategories"]` and raises
`KeyError` instead of returning nothing. -/
theorem get_view_categories_keyerror :
    get_view_categories
        ⟨"emby.local", "key1", false, "8096", 5, "u1", false, none, 30⟩
        ⟨[], none⟩ (Except.ok (500, [])) =
      Except.error "KeyError" := by
  rfl


/-! ### Lemmas about `wwwSplit` / `hasMarker` (Python `split('/www/')` and
`'/www/' in s`), leading to the path-translation contract -/

theorem wwwMarker_isPrefixOf_iff (l : List Char) :
    wwwMarker.isPrefixOf l = true ↔
      ∃ t, l = '/' :: 'w' :: 'w' :: 'w' :: '/' :: t := by
  rw [List.isPrefixOf_iff_prefix]
  constructor
  · rintro ⟨t, ht⟩
    exact ⟨t, by rw [← ht]; rfl⟩
  · rintro ⟨t, rfl⟩
    exact ⟨t, rfl⟩

theorem prefix_of_append_left (s x y : List Char) (h : s <+: x ++ y)
    (hl : s.length ≤ x.length) : s <+: x := by
  have h2 : s = (x ++ y).take s.length := List.prefix_iff_eq_take.mp h
  rw [List.take_append_of_le_length hl] at h2
  rw [h2]
  exact List.take_prefix _ _

theorem noMarker_wwwSplit (l : List Char) (h : hasMarker l = false) :
    wwwSplit l = [l] := by
  induction l with
  | nil => rfl
  | cons c rest ih =>
    rw [hasMarker] at h
    simp only [Bool.or_eq_false_iff] at h
    rw [wwwSplit.eq_def]
    split
    · rename_i tail heq
      exact absurd (wwwMarker_isPrefixOf_iff _ |>.mpr ⟨tail, heq⟩)
        (by simp [h.1])
    · rename_i c2 rest2 hne heq
      injection heq with e1 e2
      subst e1; subst e2
      rw [ih h.2]
      rfl
    · rename_i heq
      exact List.noConfusion heq

theorem wwwSplit_ne_nil (l : List Char) : wwwSplit l ≠ [] := by
  rw [wwwSplit.eq_def]
  split
  · simp
  · unfold consHead
    split <;> simp
  · simp

theorem hasMarker_append (x y : List Char) :
    hasMarker (x ++ wwwMarker ++ y) = true := by
  induction x with
  | nil =>
    show hasMarker ('/' :: 'w' :: 'w' :: 'w' :: '/' :: y) = true
    rw [hasMarker]
    have h1 : wwwMarker.isPrefixOf ('/' :: 'w' :: 'w' :: 'w' :: '/' :: y) = true :=
      (wwwMarker_isPrefixOf_iff _).mpr ⟨y, rfl⟩
    simp [h1]
  | cons c x2 ih =>
    rw [List.cons_append, List.cons_append, hasMarker]
    have h2 : hasMarker (x2 ++ wwwMarker ++ y) = true := ih
    rw [List.append_assoc] at h2
    simp [h2]

theorem wwwSplit_length_two (l : List Char) (h : hasMarker l = true) :
    2 ≤ (wwwSplit l).length := by
  induction l with
  | nil => exact absurd h (by simp [hasMarker])
  | cons c rest ih =>
    rw [wwwSplit.eq_def]
    split
    · rename_i tail heq
      have := wwwSplit_ne_nil tail
      have hlen : 1 ≤ (wwwSplit tail).length := List.length_pos.mpr this
      simp only [List.length_cons]
      omega
    · rename_i c2 rest2 hne heq
      injection heq with e1 e2
      subst e1; subst e2
      rw [hasMarker] at h
      have hp : wwwMarker.isPrefixOf (c :: rest) = false := by
        by_contra hc
        rw [Bool.not_eq_false] at hc
        obtain ⟨t, ht⟩ := (wwwMarker_isPrefixOf_iff _).mp hc
        injection ht with e1 e2
        exact hne t e1 e2
      rw [hp, Bool.false_or] at h
      have h2 := ih h
      rcases hw : wwwSplit rest with _ | ⟨s, ss⟩
      · exact absurd hw (wwwSplit_ne_nil rest)
      · rw [hw] at h2
        simp only [consHead, List.length_cons] at h2 ⊢
        omega
    · rename_i heq
      exact List.noConfusion heq

theorem wwwSplit_getLast_append (pre suf : List Char)
    (hpre : hasMarker (pre ++ ['/', 'w', 'w', 'w']) = false)
    (hsuf : hasMarker suf = false) :
    (wwwSplit (pre ++ wwwMarker ++ suf)).getLastD [] = suf := by
  induction pre with
  | nil =>
    have h1 : ([] : List Char) ++ wwwMarker ++ suf =
        '/' :: 'w' :: 'w' :: 'w' :: '/' :: suf := rfl
    rw [h1]
    have h2 : wwwSplit ('/' :: 'w' :: 'w' :: 'w' :: '/' :: suf) =
        [] :: wwwSplit suf := rfl
    rw [h2, noMarker_wwwSplit suf hsuf]
    rfl
  | cons c pre2 ih =>
    rw [List.cons_append] at hpre
    rw [hasMarker] at hpre
    simp only [Bool.or_eq_false_iff] at hpre
    rw [List.cons_append, List.cons_append]
    rw [wwwSplit.eq_def]
    split
    · rename_i tail heq
      have hpf : wwwMarker.isPrefixOf
          (c :: (pre2 ++ wwwMarker ++ suf)) = true :=
        (wwwMarker_isPrefixOf_iff _).mpr ⟨tail, heq⟩
      have hshape : c :: (pre2 ++ wwwMarker ++ suf) =
          (c :: (pre2 ++ ['/', 'w', 'w', 'w'])) ++ ('/' :: suf) := by
        simp [wwwMarker]
      rw [hshape] at hpf
      have hpx : wwwMarker <+: (c :: (pre2 ++ ['/', 'w', 'w', 'w'])) :=
        prefix_of_append_left _ _ _ (List.isPrefixOf_iff_prefix.mp hpf)
          (by simp [wwwMarker])
      have : wwwMarker.isPrefixOf (c :: (pre2 ++ ['/', 'w', 'w', 'w'])) = true :=
        List.isPrefixOf_iff_prefix.mpr hpx
      rw [hpre.1] at this
      exact Bool.noConfusion this
    · rename_i c2 rest2 hne heq
      injection heq with e1 e2
      subst e1; subst e2
      have hm : hasMarker (pre2 ++ wwwMarker ++ suf) = true :=
        hasMarker_append pre2 suf
      have h2 := wwwSplit_length_two _ hm
      have ihr := ih hpre.2
      rcases hw : wwwSplit (pre2 ++ wwwMarker ++ suf) with _ | ⟨s, ss⟩
      · exact absurd hw (wwwSplit_ne_nil _)
      · rw [hw] at h2 ihr
        rcases ss with _ | ⟨s2, ss2⟩
        · simp at h2
        · simp only [consHead]
          rw [List.getLastD_cons, List.getLastD_cons]
          rw [List.getLastD_cons, List.getLastD_cons] at ihr
          exact ihr
    · rename_i heq
      exact List.noConfusion heq

/-- C4: for a cache directory of the form `pre ++ "/www/" ++ suf` in which
this is the only marker occurrence (no occurrence starts in `pre` and none
occurs in `suf`), the path-translation step of `get_image_url` produces
`/local/{suf}/{filename}` — `/local/{everything after the marker}/{filename}`. -/
theorem toServablePath_after_marker (pre suf : List Char) (filename : String)
    (hpre : hasMarker (pre ++ ['/', 'w', 'w', 'w']) = false)
    (hsuf : hasMarker suf = false) :
    toServablePath (String.mk (pre ++ wwwMarker ++ suf)) filename =
      "/local/" ++ String.mk suf ++ "/" ++ filename := by
  unfold toServablePath
  have hd : (String.mk (pre ++ wwwMarker ++ suf)).data =
      pre ++ wwwMarker ++ suf := rfl
  rw [hd, wwwSplit_getLast_append pre suf hpre hsuf]

/-- C4 witness: the concrete instance from the spec, `"/config/www/emby_images"`
with filename `"42_Primary_ab12cd34.jpg"`. -/
theorem toServablePath_after_marker_witness :
    toServablePath "/config/www/emby_images" "42_Primary_ab12cd34.jpg" =
      "/local/emby_images/42_Primary_ab12cd34.jpg" := by
  have h := toServablePath_after_marker "/config".data "emby_images".data
    "42_Primary_ab12cd34.jpg" (by decide) (by decide)
  exact h

/-! ### Preservation of filename uniqueness in the cache directory -/

theorem fsSet_names_nodup (fs : FS) (n : String) (v : List Nat)
    (h : (fsNames fs).Nodup) : (fsNames (fsSet fs n v)).Nodup := by
  unfold fsNames fsSet
  rw [List.map_cons, List.nodup_cons]
  constructor
  · intro hmem
    rw [List.mem_map] at hmem
    obtain ⟨p, hp, hpe⟩ := hmem
    rw [List.mem_filter] at hp
    have := hp.2
    rw [bne_iff_ne] at this
    exact this hpe
  · exact List.Nodup.sublist (List.Sublist.map _ (List.filter_sublist fs)) h

theorem writeChunks_names_nodup (filename : String) :
    ∀ (chunks : List (Except Unit (List Nat))) (fs : FS),
      (fsNames fs).Nodup → (fsNames (writeChunks filename fs chunks).1).Nodup := by
  intro chunks
  induction chunks with
  | nil => intro fs h; exact h
  | cons ch rest ih =>
    intro fs h
    rcases ch with e | c
    · exact h
    · exact ih _ (fsSet_names_nodup fs filename _ h)

theorem download_image_sync_names_nodup (fs : FS) (filename : String)
    (net : DownloadNet) (h : (fsNames fs).Nodup) :
    (fsNames (download_image_sync fs filename net).1).Nodup := by
  rcases net with e | ⟨status, chunks⟩
  · exact h
  · have he : download_image_sync fs filename (Except.ok (status, chunks)) =
        if (status == 200) = true then
          writeChunks filename (fsSet fs filename []) chunks
        else (fs, false) := rfl
    rw [he]
    by_cases hs : (status == 200) = true
    · rw [if_pos hs]
      exact writeChunks_names_nodup filename chunks _
        (fsSet_names_nodup fs filename [] h)
    · rw [if_neg hs]
      exact h

theorem runCache_names_nodup (evs : List CacheEvent) :
    ∀ fs : FS, (fsNames fs).Nodup → (fsNames (runCache fs evs)).Nodup := by
  induction evs with
  | nil => intro fs h; exact h
  | cons ev rest ih =>
    intro fs h
    rcases ev with ⟨i, t⟩ | ⟨n, net⟩
    · exact ih fs h
    · exact ih _ (download_image_sync_names_nodup fs n net h)

/-- C7: with caching enabled, `get_image_url` spawns a background download
exactly when the computed cache filename is absent from the cache directory;
and over any history of `get_image_url` calls and completed
`download_image_sync` runs starting from a directory with distinct
filenames, at most one cache file exists for the pair's filename. -/
theorem cache_at_most_one_file (cfg : Config) (dir : String) (fs0 : FS)
    (evs : List CacheEvent) (itemId imageType : String)
    (h : cfg.img_dir = some dir) (h0 : (fsNames fs0).Nodup) :
    ((get_image_url cfg fs0 itemId imageType).download ≠ none ↔
      fsExists fs0 (image_filename itemId imageType) = false) ∧
    (fsNames (runCache fs0 evs)).count (image_filename itemId imageType) ≤ 1 := by
  constructor
  · unfold get_image_url
    rw [h]
    cases hEx : fsExists fs0 (image_filename itemId imageType) <;>
      cases hM : hasMarker dir.data <;> simp [hEx, hM]
  · exact List.nodup_iff_count_le_one.mp (runCache_names_nodup evs fs0 h0) _

set_option maxRecDepth 10000 in
/-- C7 witness: a run with two resolves of the pair `("42", "Primary")` and
two completed downloads of its filename, starting from an empty directory. -/
theorem cache_at_most_one_file_witness :
    ((get_image_url
          ⟨"emby.local", "key1", false, "8096", 5, "u1", false,
            some "/config/www/emby_images", 30⟩
          [] "42" "Primary").download ≠ none ↔
      fsExists [] (image_filename "42" "Primary") = false) ∧
    (fsNames (runCache []
        [CacheEvent.resolve "42" "Primary",
         CacheEvent.finish (image_filename "42" "Primary")
           (Except.ok (200, [Except.ok [1]])),
         CacheEvent.resolve "42" "Primary",
         CacheEvent.finish (image_filename "42" "Primary")
           (Except.ok (200, [Except.ok [2]]))])).count
      (image_filename "42" "Primary") ≤ 1 :=
  cache_at_most_one_file
    ⟨"emby.local", "key1", false, "8096", 5, "u1", false,
      some "/config/www/emby_images", 30⟩
    "/config/www/emby_images" []
    [CacheEvent.resolve "42" "Primary",
     CacheEvent.finish (image_filename "42" "Primary")
       (Except.ok (200, [Except.ok [1]])),
     CacheEvent.resolve "42" "Primary",
     CacheEvent.finish (image_filename "42" "Primary")
       (Except.ok (200, [Except.ok [2]]))]
    "42" "Primary" rfl (by decide)

end EmbyUpcomingMedia
